import Mathlib

/-!
Verification development for the asynchronous transcription job service
(`src/bytenite_service/src/services/transcription.py` together with the
data model in `src/bytenite_service/src/models/schemas.py`).

The embedding models:
  * `JobStatus` / `TranscriptionJob` (schemas.py);
  * the job store (a Python dict, here an association list with unique keys),
    the intake queue (a FIFO list of job ids) and the upload directory
    (a set of file paths, here a duplicate-free list);
  * `create_job`, `get_job_status`, `delete_job` of `TranscriptionService`;
  * the worker loop `_process_jobs` / `_transcribe_audio` as an interleaved
    transition system: the only `await` points of the Python coroutine are the
    queue wait and the executor call, so the dequeue-and-start section and the
    result-writing section are each atomic with respect to the event loop, and
    other operations (submit / delete) may interleave between them.

Python reference semantics: `_transcribe_audio(job)` mutates a job object that
the dict holds by reference.  Observed through the store, a mutation of the
held object is an update of the store entry exactly when the entry is still
present (and, in every reachable state, equal to the held object); once
`delete_job` removed the entry the mutation is invisible.  The worker steps
below therefore update the store entry if and only if the id is still present.

Exceptions are modelled explicitly: fallible operations return `Except PyError`
or take fault-injection parameters (`IntakeFault` for the intake path,
`cleanupFails` / `unlinkFails` for file-deletion faults that the code catches
and logs).
-/

/-- `JobStatus` from schemas.py. -/
inductive JobStatus
  | queued
  | processing
  | completed
  | failed
deriving Repr, DecidableEq

/-- `TranscriptionJob` from schemas.py.  Timestamps are abstract ticks. -/
structure TranscriptionJob where
  id : String
  user_id : String
  filename : String
  status : JobStatus
  created_at : Nat
  started_at : Option Nat := none
  completed_at : Option Nat := none
  transcript : Option String := none
  error : Option String := none
  file_path : Option String := none
deriving Repr, DecidableEq

/-- Exceptions surfaced by the service, as Python exception values:
`valueError` is `ValueError`, `otherError` is any other exception type. -/
inductive PyError
  | valueError (msg : String)
  | otherError (msg : String)
deriving Repr, DecidableEq

deriving instance DecidableEq for Except

/-- The job store: `self.jobs`, a dict from job id to job record. -/
abbrev JobStore := List (String × TranscriptionJob)

/-- `self.jobs.get(job_id)`. -/
def storeGet (m : JobStore) (k : String) : Option TranscriptionJob :=
  match m with
  | [] => none
  | (k', v) :: rest => if k' = k then some v else storeGet rest k

/-- `self.jobs[job_id] = job`: overwrite in place or append. -/
def storePut (m : JobStore) (k : String) (v : TranscriptionJob) : JobStore :=
  match m with
  | [] => [(k, v)]
  | (k', v') :: rest =>
      if k' = k then (k, v) :: rest else (k', v') :: storePut rest k v

/-- `del self.jobs[job_id]`. -/
def storeErase (m : JobStore) (k : String) : JobStore :=
  m.filter (fun p => p.1 ≠ k)

/-- The file system under the upload directory, as the set of existing paths. -/
abbrev FileSys := List String

/-- `open(file_path, "wb"); f.write(...)`: the path exists afterwards. -/
def fsWrite (fs : FileSys) (p : String) : FileSys :=
  if p ∈ fs then fs else p :: fs

/-- `Path(p).unlink()` on an existing path. -/
def fsUnlink (fs : FileSys) (p : String) : FileSys :=
  fs.filter (fun q => q ≠ p)

/-- Service-level mutable state: job store, intake queue, upload dir. -/
structure ServiceState where
  jobs : JobStore
  queue : List String
  files : FileSys
deriving Repr, DecidableEq

/-- Configuration: `UPLOAD_DIR` and `MAX_FILE_SIZE_MB`. -/
structure ServiceConfig where
  uploadDir : String
  maxFileSizeMB : Nat
deriving Repr, DecidableEq

/-- `self.upload_dir / f"{job_id}_{filename}"`. -/
def filePathFor (cfg : ServiceConfig) (jobId filename : String) : String :=
  cfg.uploadDir ++ "/" ++ jobId ++ "_" ++ filename

/-- Fault injection for the `try` block of `create_job`: where (if anywhere)
an exception with the given message is raised.
`failBeforeWrite`: `open` itself raises, no file is created.
`failAfterWrite`: the file was written, then an exception (e.g. during job
construction) is raised before the store insertion.
`failAfterInsert`: the file was written and the record inserted, then an
exception is raised before the queue insertion completes. -/
inductive IntakeFault
  | noFault
  | failBeforeWrite (msg : String)
  | failAfterWrite (msg : String)
  | failAfterInsert (msg : String)
deriving Repr, DecidableEq

/-- The `except` handler of `create_job`: delete the file if it exists, then
raise `ValueError(f"Failed to create transcription job: {e}")`. -/
def createJobHandler (s : ServiceState) (fp : String) (msg : String) :
    ServiceState × Except PyError String :=
  let files' := if fp ∈ s.files then fsUnlink s.files fp else s.files
  ({ s with files := files' },
   .error (.valueError ("Failed to create transcription job: " ++ msg)))

/-- The record built by `create_job`: `TranscriptionJob(id=..., user_id=...,
filename=..., status=QUEUED, created_at=..., file_path=...)`. -/
def newJobRecord (cfg : ServiceConfig) (jobId userId filename : String)
    (now : Nat) : TranscriptionJob :=
  { id := jobId, user_id := userId, filename := filename, status := .queued,
    created_at := now, file_path := some (filePathFor cfg jobId filename) }

/-- `create_job(audio_data, user_id, filename)`.  `audio` stands for
`audio_data` (only its length is inspected), `jobId` for the fresh
`uuid.uuid4()` value, `now` for `datetime.utcnow()`.  Returns the state after
the call together with either the job id or the raised exception. -/
def create_job (cfg : ServiceConfig) (s : ServiceState) (audio : List Nat)
    (userId filename jobId : String) (now : Nat) (fault : IntakeFault) :
    ServiceState × Except PyError String :=
  if audio.length > cfg.maxFileSizeMB * 1024 * 1024 then
    (s, .error (.valueError ("File too large: " ++ (toString audio.length ++
      (" bytes (max: " ++ (toString cfg.maxFileSizeMB ++ "MB)"))))))
  else
    let fp := filePathFor cfg jobId filename
    match fault with
    | .failBeforeWrite msg => createJobHandler s fp msg
    | .failAfterWrite msg =>
        createJobHandler { s with files := fsWrite s.files fp } fp msg
    | .failAfterInsert msg =>
        createJobHandler
          { s with files := fsWrite s.files fp,
                   jobs := storePut s.jobs jobId
                     (newJobRecord cfg jobId userId filename now) } fp msg
    | .noFault =>
        ({ s with files := fsWrite s.files fp,
                  jobs := storePut s.jobs jobId
                    (newJobRecord cfg jobId userId filename now),
                  queue := s.queue ++ [jobId] },
         .ok jobId)

/-- `get_job_status(job_id)`: pure read of the store. -/
def get_job_status (s : ServiceState) (jobId : String) : Option TranscriptionJob :=
  storeGet s.jobs jobId

/-- `delete_job(job_id)`.  `unlinkFails` injects a fault into the
`Path(job.file_path).unlink()` call; the code catches it, logs, and proceeds
to remove the record either way. -/
def delete_job (s : ServiceState) (jobId : String) (unlinkFails : Bool) :
    ServiceState × Bool :=
  match storeGet s.jobs jobId with
  | none => (s, false)
  | some job =>
      let files' :=
        match job.file_path with
        | some fp =>
            if fp ∈ s.files then
              (if unlinkFails then s.files else fsUnlink s.files fp)
            else s.files
        | none => s.files
      ({ s with files := files', jobs := storeErase s.jobs jobId }, true)

/-- `result["text"].strip()`: Python strips leading and trailing whitespace. -/
def pyStrip (s : String) : String :=
  ⟨((s.data.dropWhile Char.isWhitespace).reverse.dropWhile
      Char.isWhitespace).reverse⟩

/-- Outcome of the offloaded `_transcribe_with_whisper` call: the returned
`result["text"]`, or the raised exception rendered by `str(e)`. -/
inductive BackendOutcome
  | success (text : String)
  | failure (msg : String)
deriving Repr, DecidableEq

/-- First mutations of `_transcribe_audio`: status → PROCESSING, `started_at`. -/
def startJob (job : TranscriptionJob) (now : Nat) : TranscriptionJob :=
  { job with status := .processing, started_at := some now }

/-- The `not job.file_path or not Path(job.file_path).exists()` check:
returns the `FileNotFoundError` message if it fires. -/
def fileCheck (job : TranscriptionJob) (fs : FileSys) : Option String :=
  match job.file_path with
  | none => some "Audio file not found: None"
  | some fp =>
      if fp ∈ fs then none else some ("Audio file not found: " ++ fp)

/-- Success-path cleanup of `_transcribe_audio`:
`try: Path(job.file_path).unlink(); job.file_path = None except: log`.
`cleanupFails` injects a spurious unlink fault.  When the unlink raises
(injected fault, missing file, or `file_path` already `None`), the exception
is swallowed and `file_path` is left unchanged. -/
def cleanupSuccess (job : TranscriptionJob) (fs : FileSys) (cleanupFails : Bool) :
    TranscriptionJob × FileSys :=
  if cleanupFails then (job, fs)
  else
    match job.file_path with
    | some fp =>
        if fp ∈ fs then ({ job with file_path := none }, fsUnlink fs fp)
        else (job, fs)
    | none => (job, fs)

/-- Failure-path cleanup of `_transcribe_audio`:
`try: if job.file_path and Path(job.file_path).exists(): unlink; job.file_path
= None except: log`. -/
def cleanupFailure (job : TranscriptionJob) (fs : FileSys) (cleanupFails : Bool) :
    TranscriptionJob × FileSys :=
  match job.file_path with
  | some fp =>
      if fp ∈ fs then
        (if cleanupFails then (job, fs)
         else ({ job with file_path := none }, fsUnlink fs fp))
      else (job, fs)
  | none => (job, fs)

/-- Result-writing section of `_transcribe_audio`, applied to the job object
the worker holds: on success set `transcript` (stripped), COMPLETED,
`completed_at`, then best-effort cleanup; on any failure (backend exception or
earlier file check) set FAILED, `error`, `completed_at`, then best-effort
cleanup. -/
def finishJob (job : TranscriptionJob) (fs : FileSys) (outcome : BackendOutcome)
    (cleanupFails : Bool) (now : Nat) : TranscriptionJob × FileSys :=
  match outcome with
  | .success text =>
      cleanupSuccess
        { job with transcript := some (pyStrip text), status := .completed,
                   completed_at := some now } fs cleanupFails
  | .failure msg =>
      cleanupFailure
        { job with status := .failed, error := some msg,
                   completed_at := some now } fs cleanupFails

/-- The worker coroutine's private state: `idle` between jobs, `busy id held`
while awaiting the executor call for the object `held` (the reference obtained
from `self.jobs.get(job_id)` at dequeue time). -/
inductive WorkerState
  | idle
  | busy (jobId : String) (held : TranscriptionJob)
deriving Repr, DecidableEq

/-- Whole-system state: service state plus the worker coroutine's state. -/
structure SysState where
  svc : ServiceState
  worker : WorkerState
deriving Repr, DecidableEq

/-- Mutation of the held job object, observed through the store: the entry is
updated exactly when the id is still present (reference semantics; in every
reachable state a present entry is the held object itself). -/
def storeWriteBack (m : JobStore) (k : String) (v : TranscriptionJob) : JobStore :=
  match storeGet m k with
  | some _ => storePut m k v
  | none => m

/-- One pass of the atomic dequeue-and-start section of `_process_jobs` +
`_transcribe_audio` (everything from `queue.get` returning up to the executor
dispatch runs without an await): pop the id; skip if the job is gone or not
QUEUED; otherwise mark PROCESSING/`started_at`; if the file check fails the
except-handler runs immediately (FAILED + cleanup) and the worker stays idle,
else the worker becomes busy on the job object. -/
def dequeueStartStep (s : SysState) (now now2 : Nat) (cleanupFails : Bool) :
    SysState :=
  match s.worker with
  | .busy _ _ => s
  | .idle =>
      match s.svc.queue with
      | [] => s
      | jobId :: rest =>
          let svc1 := { s.svc with queue := rest }
          match storeGet svc1.jobs jobId with
          | none => { svc := svc1, worker := .idle }
          | some job =>
              if job.status ≠ .queued then { svc := svc1, worker := .idle }
              else
                let job1 := startJob job now
                let svc2 := { svc1 with jobs := storeWriteBack svc1.jobs jobId job1 }
                match fileCheck job1 svc2.files with
                | some msg =>
                    let r := finishJob job1 svc2.files (.failure msg) cleanupFails now2
                    { svc := { svc2 with jobs := storeWriteBack svc2.jobs jobId r.1,
                                         files := r.2 },
                      worker := .idle }
                | none => { svc := svc2, worker := .busy jobId job1 }

/-- The atomic result-writing section: the executor call returned (`outcome`),
the worker mutates the held object and the file system and becomes idle.  The
store reflects the mutation iff the record was not deleted meanwhile. -/
def finishStep (s : SysState) (outcome : BackendOutcome) (cleanupFails : Bool)
    (now : Nat) : SysState :=
  match s.worker with
  | .idle => s
  | .busy jobId held =>
      let r := finishJob held s.svc.files outcome cleanupFails now
      { svc := { s.svc with jobs := storeWriteBack s.svc.jobs jobId r.1,
                            files := r.2 },
        worker := .idle }

/-- `create_job` lifted to the system state (the worker is untouched). -/
def submitStep (cfg : ServiceConfig) (s : SysState) (audio : List Nat)
    (userId filename jobId : String) (now : Nat) (fault : IntakeFault) :
    SysState × Except PyError String :=
  let r := create_job cfg s.svc audio userId filename jobId now fault
  ({ svc := r.1, worker := s.worker }, r.2)

/-- `delete_job` lifted to the system state (the worker is untouched). -/
def deleteStep (s : SysState) (jobId : String) (unlinkFails : Bool) :
    SysState × Bool :=
  let r := delete_job s.svc jobId unlinkFails
  ({ svc := r.1, worker := s.worker }, r.2)

/-- Freshness of a `uuid.uuid4()` id: not a key of the store and not the id
the worker is currently busy on. -/
def freshId (s : SysState) (jobId : String) : Prop :=
  storeGet s.svc.jobs jobId = none ∧
    ∀ wid held, s.worker = .busy wid held → jobId ≠ wid

/-- The transition relation of the service: any interleaving of submissions,
deletions and the two atomic worker sections. -/
inductive Step (cfg : ServiceConfig) : SysState → SysState → Prop
  | submit (s : SysState) (audio : List Nat) (userId filename jobId : String)
      (now : Nat) (fault : IntakeFault) (hfresh : freshId s jobId) :
      Step cfg s (submitStep cfg s audio userId filename jobId now fault).1
  | dequeueStart (s : SysState) (now now2 : Nat) (cleanupFails : Bool) :
      Step cfg s (dequeueStartStep s now now2 cleanupFails)
  | finish (s : SysState) (outcome : BackendOutcome) (cleanupFails : Bool)
      (now : Nat) :
      Step cfg s (finishStep s outcome cleanupFails now)
  | del (s : SysState) (jobId : String) (unlinkFails : Bool) :
      Step cfg s (deleteStep s jobId unlinkFails).1

/-- What one iteration of the `while True` body of `_process_jobs` did:
either it ran to completion (`ok`, covering the skip paths and a processed
job, since `_transcribe_audio` catches every `Exception` itself), or an
`asyncio.CancelledError` reached the `try`, or some other `Exception` was
raised during dequeue, lookup or processing. -/
inductive WorkerExn
  | cancelledError
  | exception (msg : String)
deriving Repr, DecidableEq

/-- Loop control decision after one iteration. -/
inductive LoopControl
  | breakLoop
  | continueLoop
deriving Repr, DecidableEq

/-- The `except` clauses of `_process_jobs`: `except asyncio.CancelledError:
break`, `except Exception: log; (fall through to the next iteration)`. -/
def processJobsReaction (r : Except WorkerExn Unit) : LoopControl :=
  match r with
  | .error .cancelledError => .breakLoop
  | .error (.exception _) => .continueLoop
  | .ok _ => .continueLoop

/-- Per-record invariant of the spec (§3): transcript only when COMPLETED,
error only when FAILED, neither while QUEUED or PROCESSING. -/
def recordInv (j : TranscriptionJob) : Prop :=
  (j.status = .queued → j.transcript = none ∧ j.error = none) ∧
  (j.status = .processing → j.transcript = none ∧ j.error = none) ∧
  (j.status = .completed → j.transcript.isSome = true ∧ j.error = none) ∧
  (j.status = .failed → j.error.isSome = true ∧ j.transcript = none)

instance (j : TranscriptionJob) : Decidable (recordInv j) := by
  unfold recordInv; infer_instance

/-- Coherence of the worker's held reference with the store: while busy, the
held object is PROCESSING, satisfies the record invariant, and the store entry
under its id (if not deleted meanwhile) is that very object. -/
def workerInv (s : SysState) : Prop :=
  match s.worker with
  | .idle => True
  | .busy jobId held =>
      held.status = .processing ∧ recordInv held ∧
        (storeGet s.svc.jobs jobId = none ∨ storeGet s.svc.jobs jobId = some held)

instance (s : SysState) : Decidable (workerInv s) := by
  obtain ⟨svc, w⟩ := s
  cases w with
  | idle => exact isTrue True.intro
  | busy jobId held =>
      exact inferInstanceAs (Decidable (held.status = .processing ∧
        recordInv held ∧
        (storeGet svc.jobs jobId = none ∨ storeGet svc.jobs jobId = some held)))

/-- System invariant: every stored record and the held record satisfy the
per-record invariant, and the held reference is coherent with the store. -/
def SysInv (s : SysState) : Prop :=
  (∀ p ∈ s.svc.jobs, recordInv p.2) ∧ workerInv s

instance (s : SysState) : Decidable (SysInv s) := by
  unfold SysInv; infer_instance

/-- The reflexive forward order of the status state machine
QUEUED → PROCESSING → (COMPLETED or FAILED). -/
def statusLe : JobStatus → JobStatus → Bool
  | .queued, _ => true
  | .processing, .queued => false
  | .processing, _ => true
  | .completed, .completed => true
  | .completed, _ => false
  | .failed, .failed => true
  | .failed, _ => false

/-- Concrete configuration for the witness scenarios. -/
def cfgW : ServiceConfig := ⟨"/up", 100⟩

/-- Empty initial system state (fresh service). -/
def sysInit : SysState := ⟨⟨[], [], []⟩, .idle⟩

/-- One job "j1" submitted. -/
def sysSubmitted : SysState :=
  (submitStep cfgW sysInit [0, 1] "u1" "a.wav" "j1" 0 .noFault).1

/-- The worker has dequeued "j1" and dispatched the backend call. -/
def sysStarted : SysState := dequeueStartStep sysSubmitted 1 1 false

/-- The job object the worker holds in `sysStarted`. -/
def heldJ1 : TranscriptionJob :=
  { id := "j1", user_id := "u1", filename := "a.wav", status := .processing,
    created_at := 0, started_at := some 1, file_path := some "/up/j1_a.wav" }

/-- The record of "j1" as stored right after submission. -/
def queuedJ1 : TranscriptionJob :=
  { id := "j1", user_id := "u1", filename := "a.wav", status := .queued,
    created_at := 0, file_path := some "/up/j1_a.wav" }

theorem storeGet_put_same (m : JobStore) (k : String) (v : TranscriptionJob) :
    storeGet (storePut m k v) k = some v := by
  induction m with
  | nil => simp [storePut, storeGet]
  | cons p rest ih =>
      obtain ⟨k', v'⟩ := p
      by_cases h : k' = k
      · simp [storePut, storeGet, h]
      · simp [storePut, storeGet, h, ih]

theorem storeGet_put_ne (m : JobStore) (k k' : String) (v : TranscriptionJob)
    (h : k' ≠ k) : storeGet (storePut m k v) k' = storeGet m k' := by
  induction m with
  | nil => simp [storePut, storeGet, Ne.symm h]
  | cons p rest ih =>
      obtain ⟨k₀, v₀⟩ := p
      by_cases h0 : k₀ = k
      · subst h0
        simp [storePut, storeGet, Ne.symm h]
      · simp [storePut, storeGet, h0, ih]

theorem storeGet_erase_same (m : JobStore) (k : String) :
    storeGet (storeErase m k) k = none := by
  induction m with
  | nil => simp [storeErase, storeGet]
  | cons p rest ih =>
      obtain ⟨k', v'⟩ := p
      by_cases h : k' = k
      · simpa [storeErase, storeGet, h] using ih
      · simpa [storeErase, storeGet, h] using ih

theorem storeGet_erase_ne (m : JobStore) (k k' : String) (h : k' ≠ k) :
    storeGet (storeErase m k) k' = storeGet m k' := by
  induction m with
  | nil => simp [storeErase, storeGet]
  | cons p rest ih =>
      obtain ⟨k₀, v₀⟩ := p
      by_cases h0 : k₀ = k
      · subst h0
        simp [storeErase, storeGet, Ne.symm h] at ih ⊢
        exact ih
      · by_cases h1 : k₀ = k'
        · subst h1
          simp [storeErase, storeGet, h0]
        · simp [storeErase, storeGet, h0, h1] at ih ⊢
          exact ih

theorem mem_storePut (m : JobStore) (k : String) (v : TranscriptionJob)
    (p : String × TranscriptionJob) (h : p ∈ storePut m k v) :
    p = (k, v) ∨ p ∈ m := by
  induction m with
  | nil => simpa [storePut] using h
  | cons q rest ih =>
      obtain ⟨k', v'⟩ := q
      by_cases h0 : k' = k
      · simp [storePut, h0] at h
        rcases h with h | h
        · exact Or.inl (by simp [h])
        · exact Or.inr (by simp [h])
      · simp [storePut, h0] at h
        rcases h with h | h
        · exact Or.inr (by simp [h])
        · rcases ih h with h1 | h1
          · exact Or.inl h1
          · exact Or.inr (by simp [h1])

theorem mem_storeErase (m : JobStore) (k : String)
    (p : String × TranscriptionJob) (h : p ∈ storeErase m k) : p ∈ m :=
  List.mem_of_mem_filter h

theorem storeWriteBack_of_none (m : JobStore) (k : String)
    (v : TranscriptionJob) (h : storeGet m k = none) :
    storeWriteBack m k v = m := by
  simp [storeWriteBack, h]

theorem storeWriteBack_of_some (m : JobStore) (k : String)
    (v w : TranscriptionJob) (h : storeGet m k = some w) :
    storeWriteBack m k v = storePut m k v := by
  simp [storeWriteBack, h]

theorem mem_storeWriteBack (m : JobStore) (k : String) (v : TranscriptionJob)
    (p : String × TranscriptionJob) (h : p ∈ storeWriteBack m k v) :
    p = (k, v) ∨ p ∈ m := by
  unfold storeWriteBack at h
  cases h0 : storeGet m k with
  | none => rw [h0] at h; exact Or.inr h
  | some w => rw [h0] at h; exact mem_storePut m k v p h

theorem storeGet_writeBack_ne (m : JobStore) (k k' : String)
    (v : TranscriptionJob) (h : k' ≠ k) :
    storeGet (storeWriteBack m k v) k' = storeGet m k' := by
  unfold storeWriteBack
  cases h0 : storeGet m k with
  | none => rfl
  | some w => exact storeGet_put_ne m k k' v h

theorem mem_fsWrite (fs : FileSys) (p : String) : p ∈ fsWrite fs p := by
  unfold fsWrite
  split
  · assumption
  · exact List.mem_cons_self p fs

theorem not_mem_fsUnlink (fs : FileSys) (p : String) : p ∉ fsUnlink fs p := by
  intro h
  have := List.of_mem_filter h
  simp at this

theorem storeGet_mem (m : JobStore) (k : String) (v : TranscriptionJob)
    (h : storeGet m k = some v) : (k, v) ∈ m := by
  induction m with
  | nil => simp [storeGet] at h
  | cons p rest ih =>
      obtain ⟨k', v'⟩ := p
      by_cases h0 : k' = k
      · subst h0
        simp [storeGet] at h
        simp [h]
      · simp [storeGet, h0] at h
        simp [ih h]

theorem cleanupSuccess_fields (j : TranscriptionJob) (fs : FileSys) (cf : Bool) :
    ((cleanupSuccess j fs cf).1).status = j.status ∧
    ((cleanupSuccess j fs cf).1).error = j.error ∧
    ((cleanupSuccess j fs cf).1).transcript = j.transcript ∧
    ((cleanupSuccess j fs cf).1).completed_at = j.completed_at := by
  unfold cleanupSuccess
  by_cases hcf : cf
  · simp [hcf]
  · cases hfp : j.file_path with
    | none => simp [hcf, hfp]
    | some fp => by_cases hin : fp ∈ fs <;> simp [hcf, hfp, hin]

theorem cleanupFailure_fields (j : TranscriptionJob) (fs : FileSys) (cf : Bool) :
    ((cleanupFailure j fs cf).1).status = j.status ∧
    ((cleanupFailure j fs cf).1).error = j.error ∧
    ((cleanupFailure j fs cf).1).transcript = j.transcript ∧
    ((cleanupFailure j fs cf).1).completed_at = j.completed_at := by
  unfold cleanupFailure
  cases hfp : j.file_path with
  | none => simp
  | some fp =>
      by_cases hin : fp ∈ fs
      · by_cases hcf : cf <;> simp [hfp, hin, hcf]
      · simp [hfp, hin]

theorem finishJob_success_fields (j : TranscriptionJob) (fs : FileSys)
    (t : String) (cf : Bool) (now : Nat) :
    ((finishJob j fs (.success t) cf now).1).status = .completed ∧
    ((finishJob j fs (.success t) cf now).1).error = j.error ∧
    ((finishJob j fs (.success t) cf now).1).transcript = some (pyStrip t) ∧
    ((finishJob j fs (.success t) cf now).1).completed_at = some now := by
  unfold finishJob
  have h := cleanupSuccess_fields
    { j with transcript := some (pyStrip t), status := .completed,
             completed_at := some now } fs cf
  exact ⟨h.1, h.2.1, h.2.2.1, h.2.2.2⟩

theorem finishJob_failure_fields (j : TranscriptionJob) (fs : FileSys)
    (msg : String) (cf : Bool) (now : Nat) :
    ((finishJob j fs (.failure msg) cf now).1).status = .failed ∧
    ((finishJob j fs (.failure msg) cf now).1).error = some msg ∧
    ((finishJob j fs (.failure msg) cf now).1).transcript = j.transcript ∧
    ((finishJob j fs (.failure msg) cf now).1).completed_at = some now := by
  unfold finishJob
  have h := cleanupFailure_fields
    { j with status := .failed, error := some msg, completed_at := some now }
    fs cf
  exact ⟨h.1, h.2.1, h.2.2.1, h.2.2.2⟩

theorem statusLe_refl (st : JobStatus) : statusLe st st = true := by
  cases st <;> rfl

/-- C2: an oversized submission (`len(audio_data) > max_file_size_mb * 1024 *
1024`, strict inequality) makes `create_job` raise `ValueError` ("File too
large") with no state mutation — the returned store, queue and file system are
exactly the ones passed in; a submission whose length is at or below the limit
(including exactly equal) is not rejected by the size check and, absent
intake faults, succeeds. -/
theorem create_job_size_limit (cfg : ServiceConfig) (s : ServiceState)
    (audio : List Nat) (userId filename jobId : String) (now : Nat)
    (fault : IntakeFault) :
    (audio.length > cfg.maxFileSizeMB * 1024 * 1024 →
      create_job cfg s audio userId filename jobId now fault =
        (s, .error (.valueError ("File too large: " ++ (toString audio.length ++
          (" bytes (max: " ++ (toString cfg.maxFileSizeMB ++ "MB)"))))))) ∧
    (audio.length ≤ cfg.maxFileSizeMB * 1024 * 1024 →
      (create_job cfg s audio userId filename jobId now .noFault).2 =
        .ok jobId) := by
  constructor
  · intro h
    simp [create_job, h]
  · intro h
    simp [create_job, Nat.not_lt.mpr h]

/-- Witness for C2: a 2-byte upload against a 0 MB limit is rejected with the
state unchanged; the same upload against a 100 MB limit is accepted. -/
theorem create_job_size_limit_witness :
    (create_job ⟨"/up", 0⟩ ⟨[], [], []⟩ [0, 1] "u" "a.wav" "j1" 0 .noFault =
      (⟨[], [], []⟩, .error (.valueError ("File too large: " ++
        (toString (2 : Nat) ++ (" bytes (max: " ++
          (toString (0 : Nat) ++ "MB)"))))))) ∧
    ((create_job cfgW ⟨[], [], []⟩ [0, 1] "u" "a.wav" "j1" 0 .noFault).2 =
      .ok "j1") :=
  ⟨(create_job_size_limit ⟨"/up", 0⟩ ⟨[], [], []⟩ [0, 1] "u" "a.wav" "j1" 0
      .noFault).1 (by decide),
   (create_job_size_limit cfgW ⟨[], [], []⟩ [0, 1] "u" "a.wav" "j1" 0
      .noFault).2 (by decide)⟩

/-- C6: whenever `create_job` exits with an error, the per-job upload file is
not left behind: assuming the job's path is fresh (ids are fresh uuids), the
path is absent from the file system on every error exit, for every fault
point (before the write, after the write, after the store insertion). -/
theorem create_job_no_orphan (cfg : ServiceConfig) (s : ServiceState)
    (audio : List Nat) (userId filename jobId : String) (now : Nat)
    (fault : IntakeFault) (e : PyError)
    (hfp : filePathFor cfg jobId filename ∉ s.files)
    (herr : (create_job cfg s audio userId filename jobId now fault).2 =
      .error e) :
    filePathFor cfg jobId filename ∉
      (create_job cfg s audio userId filename jobId now fault).1.files := by
  by_cases hsz : audio.length > cfg.maxFileSizeMB * 1024 * 1024
  · simpa [create_job, hsz] using hfp
  · cases fault with
    | noFault => simp [create_job, hsz] at herr
    | failBeforeWrite msg =>
        simp [create_job, hsz, createJobHandler, hfp]
    | failAfterWrite msg =>
        simp [create_job, hsz, createJobHandler, mem_fsWrite,
          not_mem_fsUnlink]
    | failAfterInsert msg =>
        simp [create_job, hsz, createJobHandler, mem_fsWrite,
          not_mem_fsUnlink]

/-- Witness for C6: a write fault right after the file landed still leaves no
file behind. -/
theorem create_job_no_orphan_witness :
    filePathFor cfgW "j1" "a.wav" ∉
      (create_job cfgW ⟨[], [], []⟩ [0] "u" "a.wav" "j1" 0
        (.failAfterWrite "disk full")).1.files :=
  create_job_no_orphan cfgW ⟨[], [], []⟩ [0] "u" "a.wav" "j1" 0
    (.failAfterWrite "disk full")
    (.valueError ("Failed to create transcription job: " ++ "disk full"))
    (by decide) (by decide)

/-- C10: every failure of `create_job` reaches the caller as a `ValueError`:
either the direct size rejection ("File too large: ...") or, for any failure
after the size check, the wrapped form with message starting
"Failed to create transcription job: ". -/
theorem create_job_errors_are_valueError (cfg : ServiceConfig)
    (s : ServiceState) (audio : List Nat) (userId filename jobId : String)
    (now : Nat) (fault : IntakeFault) (e : PyError)
    (herr : (create_job cfg s audio userId filename jobId now fault).2 =
      .error e) :
    ∃ msg, e = .valueError msg ∧
      ((∃ r, msg = "File too large: " ++ r) ∨
       (∃ r, msg = "Failed to create transcription job: " ++ r)) := by
  by_cases hsz : audio.length > cfg.maxFileSizeMB * 1024 * 1024
  · simp [create_job, hsz] at herr
    exact ⟨_, herr.symm, Or.inl ⟨_, rfl⟩⟩
  · cases fault with
    | noFault => simp [create_job, hsz] at herr
    | failBeforeWrite msg =>
        simp [create_job, hsz, createJobHandler] at herr
        exact ⟨_, herr.symm, Or.inr ⟨msg, rfl⟩⟩
    | failAfterWrite msg =>
        simp [create_job, hsz, createJobHandler] at herr
        exact ⟨_, herr.symm, Or.inr ⟨msg, rfl⟩⟩
    | failAfterInsert msg =>
        simp [create_job, hsz, createJobHandler] at herr
        exact ⟨_, herr.symm, Or.inr ⟨msg, rfl⟩⟩

/-- Witness for C10 at a concrete post-write fault. -/
theorem create_job_errors_are_valueError_witness :
    ∃ msg,
      PyError.valueError ("Failed to create transcription job: " ++ "boom") =
        .valueError msg ∧
      ((∃ r, msg = "File too large: " ++ r) ∨
       (∃ r, msg = "Failed to create transcription job: " ++ r)) :=
  create_job_errors_are_valueError cfgW ⟨[], [], []⟩ [0] "u" "a.wav" "j1" 0
    (.failAfterWrite "boom")
    (.valueError ("Failed to create transcription job: " ++ "boom"))
    (by decide)

/-- C7: `delete_job` is idempotent in outcome: the first call on an existing
job removes the record, removes its backing file when `file_path` is still
set, and returns true; a second call on the same id returns false, changes
nothing (in particular touches no file), and a call on a never-existing id
likewise returns false with the state unchanged.  No call raises. -/
theorem delete_job_idempotent (s : ServiceState) (jobId : String)
    (job : TranscriptionJob) (u2 : Bool)
    (hjob : storeGet s.jobs jobId = some job) :
    (delete_job s jobId false).2 = true ∧
    storeGet (delete_job s jobId false).1.jobs jobId = none ∧
    (∀ fp, job.file_path = some fp →
      fp ∉ (delete_job s jobId false).1.files) ∧
    delete_job (delete_job s jobId false).1 jobId u2 =
      ((delete_job s jobId false).1, false) ∧
    (∀ s' : ServiceState, storeGet s'.jobs jobId = none →
      delete_job s' jobId u2 = (s', false)) := by
  have h2 : storeGet (delete_job s jobId false).1.jobs jobId = none := by
    simp [delete_job, hjob, storeGet_erase_same]
  have hnone : ∀ (s' : ServiceState) (u : Bool),
      storeGet s'.jobs jobId = none → delete_job s' jobId u = (s', false) := by
    intro s' u h
    simp [delete_job, h]
  refine ⟨?_, h2, ?_, hnone _ u2 h2, fun s' h => hnone s' u2 h⟩
  · simp [delete_job, hjob]
  · intro fp hfp
    by_cases hin : fp ∈ s.files <;>
      simp [delete_job, hjob, hfp, hin, not_mem_fsUnlink]

/-- Witness for C7 on the freshly submitted job "j1". -/
theorem delete_job_idempotent_witness :
    (delete_job sysSubmitted.svc "j1" false).2 = true ∧
    storeGet (delete_job sysSubmitted.svc "j1" false).1.jobs "j1" = none ∧
    (∀ fp, queuedJ1.file_path = some fp →
      fp ∉ (delete_job sysSubmitted.svc "j1" false).1.files) ∧
    delete_job (delete_job sysSubmitted.svc "j1" false).1 "j1" true =
      ((delete_job sysSubmitted.svc "j1" false).1, false) ∧
    (∀ s' : ServiceState, storeGet s'.jobs "j1" = none →
      delete_job s' "j1" true = (s', false)) :=
  delete_job_idempotent sysSubmitted.svc "j1" queuedJ1 true (by decide)

/-- C9: when unlinking the backing file raises inside `delete_job`, the error
is swallowed: the record is still removed, the call still returns true, and
(the unlink having failed) the file system is unchanged. -/
theorem delete_job_swallows_unlink_error (s : ServiceState) (jobId : String)
    (job : TranscriptionJob) (hjob : storeGet s.jobs jobId = some job) :
    (delete_job s jobId true).2 = true ∧
    storeGet (delete_job s jobId true).1.jobs jobId = none ∧
    (delete_job s jobId true).1.files = s.files := by
  refine ⟨?_, ?_, ?_⟩
  · simp [delete_job, hjob]
  · simp [delete_job, hjob, storeGet_erase_same]
  · cases hfp : job.file_path with
    | none => simp [delete_job, hjob, hfp]
    | some fp => by_cases hin : fp ∈ s.files <;>
        simp [delete_job, hjob, hfp, hin]

/-- Witness for C9 on the freshly submitted job "j1". -/
theorem delete_job_swallows_unlink_error_witness :
    (delete_job sysSubmitted.svc "j1" true).2 = true ∧
    storeGet (delete_job sysSubmitted.svc "j1" true).1.jobs "j1" = none ∧
    (delete_job sysSubmitted.svc "j1" true).1.files = sysSubmitted.svc.files :=
  delete_job_swallows_unlink_error sysSubmitted.svc "j1" queuedJ1 (by decide)

/-- C3: the worker loop's dispatch on one iteration's outcome: it breaks out
of `while True` exactly when `asyncio.CancelledError` reached it (service
shutdown); every other exception — and normal completion — continues with the
next iteration. -/
theorem worker_loop_exits_only_on_cancellation (r : Except WorkerExn Unit) :
    processJobsReaction r = .breakLoop ↔ r = .error .cancelledError := by
  cases r with
  | ok v => simp [processJobsReaction]
  | error e => cases e <;> simp [processJobsReaction]

/-- Counterexample to C1 as stated: the backend returns "  hello  " but the
stored transcript is "hello" — `_transcribe_audio` sets
`job.transcript = result["text"].strip()`, not the returned text itself. -/
theorem transcript_is_stripped_counterexample :
    (get_job_status (finishStep sysStarted (.success "  hello  ") false 2).svc
        "j1").map (fun j => j.transcript) = some (some "hello") ∧
    (get_job_status (finishStep sysStarted (.success "  hello  ") false 2).svc
        "j1").map (fun j => j.transcript) ≠ some (some "  hello  ") := by
  exact ⟨by decide, by decide⟩

/-- C1 (amended): for the job the worker is processing, once the backend call
returns the stored record satisfies: on success, `transcript` is the
backend's returned text stripped of leading/trailing whitespace, status is
COMPLETED, `completed_at` is set; on failure, `error` is the failure
description, status is FAILED, `completed_at` is set; on both paths the
backing file is best-effort deleted and `file_path` cleared, and a cleanup
failure is swallowed — the record keeps its COMPLETED (resp. FAILED) status
and nothing propagates out of the worker. -/
theorem transcribe_result_recorded (s : SysState) (jobId : String)
    (held : TranscriptionJob) (fp t msg : String) (now : Nat)
    (hw : s.worker = .busy jobId held)
    (hpres : storeGet s.svc.jobs jobId = some held)
    (hfp : held.file_path = some fp) (hin : fp ∈ s.svc.files) :
    (storeGet (finishStep s (.success t) false now).svc.jobs jobId =
        some { held with transcript := some (pyStrip t), status := .completed,
                         completed_at := some now, file_path := none } ∧
      fp ∉ (finishStep s (.success t) false now).svc.files) ∧
    (storeGet (finishStep s (.success t) true now).svc.jobs jobId =
        some { held with transcript := some (pyStrip t), status := .completed,
                         completed_at := some now }) ∧
    (storeGet (finishStep s (.failure msg) false now).svc.jobs jobId =
        some { held with status := .failed, error := some msg,
                         completed_at := some now, file_path := none } ∧
      fp ∉ (finishStep s (.failure msg) false now).svc.files) ∧
    (storeGet (finishStep s (.failure msg) true now).svc.jobs jobId =
        some { held with status := .failed, error := some msg,
                         completed_at := some now }) := by
  refine ⟨⟨?_, ?_⟩, ?_, ⟨?_, ?_⟩, ?_⟩ <;>
    simp [finishStep, hw, finishJob, cleanupSuccess, cleanupFailure, hfp, hin,
      storeWriteBack, hpres, storeGet_put_same, not_mem_fsUnlink]

/-- Witness for the amended C1 on the in-flight job "j1". -/
theorem transcribe_result_recorded_witness :
    (storeGet (finishStep sysStarted (.success "  hi  ") false 2).svc.jobs
        "j1" =
        some { heldJ1 with transcript := some (pyStrip "  hi  "),
                           status := .completed, completed_at := some 2,
                           file_path := none } ∧
      "/up/j1_a.wav" ∉
        (finishStep sysStarted (.success "  hi  ") false 2).svc.files) ∧
    (storeGet (finishStep sysStarted (.success "  hi  ") true 2).svc.jobs
        "j1" =
        some { heldJ1 with transcript := some (pyStrip "  hi  "),
                           status := .completed, completed_at := some 2 }) ∧
    (storeGet (finishStep sysStarted (.failure "Corrupted audio file") false
        2).svc.jobs "j1" =
        some { heldJ1 with status := .failed,
                           error := some "Corrupted audio file",
                           completed_at := some 2, file_path := none } ∧
      "/up/j1_a.wav" ∉
        (finishStep sysStarted (.failure "Corrupted audio file") false
          2).svc.files) ∧
    (storeGet (finishStep sysStarted (.failure "Corrupted audio file") true
        2).svc.jobs "j1" =
        some { heldJ1 with status := .failed,
                           error := some "Corrupted audio file",
                           completed_at := some 2 }) :=
  transcribe_result_recorded sysStarted "j1" heldJ1 "/up/j1_a.wav" "  hi  "
    "Corrupted audio file" 2 (by decide) (by decide) (by decide) (by decide)

/-- C5: deleting a job while the worker is busy on it neither interrupts the
in-flight call (the worker stays busy on the same held object) nor lets the
later result write resurrect the record: the finish step leaves the job store
exactly as the deletion left it, the id is not reinserted, and `get_status`
returns not-found afterwards. -/
theorem delete_processing_job_finish_noop (s : SysState) (jobId : String)
    (held : TranscriptionJob) (u cf : Bool) (outcome : BackendOutcome)
    (now : Nat)
    (hw : s.worker = .busy jobId held)
    (hpres : storeGet s.svc.jobs jobId = some held)
    (_hproc : held.status = .processing) :
    (deleteStep s jobId u).2 = true ∧
    (deleteStep s jobId u).1.worker = .busy jobId held ∧
    (finishStep (deleteStep s jobId u).1 outcome cf now).svc.jobs =
      (deleteStep s jobId u).1.svc.jobs ∧
    get_job_status
      (finishStep (deleteStep s jobId u).1 outcome cf now).svc jobId =
      none := by
  have hworker : (deleteStep s jobId u).1.worker = .busy jobId held := by
    simp [deleteStep, hw]
  have hgone : storeGet (deleteStep s jobId u).1.svc.jobs jobId = none := by
    simp [deleteStep, delete_job, hpres, storeGet_erase_same]
  have hfin : (finishStep (deleteStep s jobId u).1 outcome cf now).svc.jobs =
      (deleteStep s jobId u).1.svc.jobs := by
    simp [finishStep, hworker]
    rw [storeWriteBack_of_none _ _ _ hgone]
  refine ⟨?_, hworker, hfin, ?_⟩
  · simp [deleteStep, delete_job, hpres]
  · unfold get_job_status
    rw [hfin]
    exact hgone

/-- Witness for C5: delete "j1" mid-processing, then let the backend call
succeed — the store stays empty and "j1" is gone. -/
theorem delete_processing_job_finish_noop_witness :
    (deleteStep sysStarted "j1" false).2 = true ∧
    (deleteStep sysStarted "j1" false).1.worker = .busy "j1" heldJ1 ∧
    (finishStep (deleteStep sysStarted "j1" false).1 (.success "hi") false
        2).svc.jobs = (deleteStep sysStarted "j1" false).1.svc.jobs ∧
    get_job_status
      (finishStep (deleteStep sysStarted "j1" false).1 (.success "hi") false
        2).svc "j1" = none :=
  delete_processing_job_finish_noop sysStarted "j1" heldJ1 false false
    (.success "hi") 2 (by decide) (by decide) (by decide)

theorem recordInv_of_get (m : JobStore) (k : String) (v : TranscriptionJob)
    (hall : ∀ p ∈ m, recordInv p.2) (h : storeGet m k = some v) :
    recordInv v :=
  hall (k, v) (storeGet_mem m k v h)

theorem recordInv_newJobRecord (cfg : ServiceConfig)
    (jobId userId filename : String) (now : Nat) :
    recordInv (newJobRecord cfg jobId userId filename now) := by
  simp [recordInv, newJobRecord]

theorem startJob_status (j : TranscriptionJob) (now : Nat) :
    (startJob j now).status = .processing := rfl

theorem recordInv_startJob (j : TranscriptionJob) (now : Nat)
    (h : recordInv j) (hq : j.status = .queued) :
    recordInv (startJob j now) := by
  obtain ⟨ht, he⟩ := h.1 hq
  simp [recordInv, startJob, ht, he]

theorem recordInv_finishJob (j : TranscriptionJob) (fs : FileSys)
    (outcome : BackendOutcome) (cf : Bool) (now : Nat)
    (ht : j.transcript = none) (he : j.error = none) :
    recordInv (finishJob j fs outcome cf now).1 := by
  cases outcome with
  | success t =>
      obtain ⟨hs, herr, htr, _⟩ := finishJob_success_fields j fs t cf now
      refine ⟨fun hst => ?_, fun hst => ?_, fun _ => ?_, fun hst => ?_⟩
      · rw [hs] at hst; cases hst
      · rw [hs] at hst; cases hst
      · rw [herr, htr, he]; simp
      · rw [hs] at hst; cases hst
  | failure msg =>
      obtain ⟨hs, herr, htr, _⟩ := finishJob_failure_fields j fs msg cf now
      refine ⟨fun hst => ?_, fun hst => ?_, fun hst => ?_, fun _ => ?_⟩
      · rw [hs] at hst; cases hst
      · rw [hs] at hst; cases hst
      · rw [hs] at hst; cases hst
      · rw [herr, htr, ht]; simp

theorem workerInv_idle (svc : ServiceState) : workerInv ⟨svc, .idle⟩ := by
  trivial

theorem workerInv_busy_iff (svc : ServiceState) (wid : String)
    (held : TranscriptionJob) :
    workerInv ⟨svc, .busy wid held⟩ ↔
      (held.status = .processing ∧ recordInv held ∧
        (storeGet svc.jobs wid = none ∨ storeGet svc.jobs wid = some held)) :=
  Iff.rfl

/-- C4: the spec's record invariant — `transcript` present exactly when
COMPLETED, `error` present exactly when FAILED, neither while QUEUED or
PROCESSING — holds of every stored record and of the worker's held record,
and is preserved by every step of the system (submission, worker
dequeue/start, worker result write, deletion). -/
theorem sysInv_preserved (cfg : ServiceConfig) (s s' : SysState)
    (hinv : SysInv s) (hstep : Step cfg s s') : SysInv s' := by
  obtain ⟨hrec, hwork⟩ := hinv
  cases hstep with
  | submit audio userId filename jobId now fault hfresh =>
      obtain ⟨hfresh1, hfresh2⟩ := hfresh
      obtain ⟨svc, w⟩ := s
      have hjobs :
          (create_job cfg svc audio userId filename jobId now fault).1.jobs =
            svc.jobs ∨
          (create_job cfg svc audio userId filename jobId now fault).1.jobs =
            storePut svc.jobs jobId
              (newJobRecord cfg jobId userId filename now) := by
        by_cases hsz : audio.length > cfg.maxFileSizeMB * 1024 * 1024
        · left; simp [create_job, hsz]
        · cases fault <;> simp [create_job, hsz, createJobHandler]
      show SysInv
        ⟨(create_job cfg svc audio userId filename jobId now fault).1, w⟩
      constructor
      · intro p hp
        rcases hjobs with h | h
        · rw [show (⟨(create_job cfg svc audio userId filename jobId now
              fault).1, w⟩ : SysState).svc.jobs = _ from h] at hp
          exact hrec p hp
        · rw [show (⟨(create_job cfg svc audio userId filename jobId now
              fault).1, w⟩ : SysState).svc.jobs = _ from h] at hp
          rcases mem_storePut _ _ _ _ hp with h1 | h1
          · rw [h1]
            exact recordInv_newJobRecord cfg jobId userId filename now
          · exact hrec p h1
      · cases hw : w with
        | idle => exact workerInv_idle _
        | busy wid held =>
            subst hw
            obtain ⟨hpr, hrh, hcoh⟩ := (workerInv_busy_iff svc wid held).mp hwork
            refine (workerInv_busy_iff _ wid held).mpr ⟨hpr, hrh, ?_⟩
            have hne : wid ≠ jobId := (hfresh2 wid held rfl).symm
            rcases hjobs with h | h <;> rw [h]
            · exact hcoh
            · rw [storeGet_put_ne _ _ _ _ hne]
              exact hcoh
  | dequeueStart now now2 cf =>
      obtain ⟨svc, w⟩ := s
      cases w with
      | busy wid held => exact ⟨hrec, hwork⟩
      | idle =>
          obtain ⟨jobs, queue, files⟩ := svc
          cases queue with
          | nil => exact ⟨hrec, hwork⟩
          | cons jobId rest =>
              cases hj : storeGet jobs jobId with
              | none =>
                  simp only [dequeueStartStep, hj]
                  exact ⟨hrec, workerInv_idle _⟩
              | some job =>
                  have hrecj : recordInv job :=
                    recordInv_of_get jobs jobId job hrec hj
                  by_cases hq : job.status = .queued
                  · have hrec1 : recordInv (startJob job now) :=
                      recordInv_startJob job now hrecj hq
                    have hwb : storeWriteBack jobs jobId (startJob job now) =
                        storePut jobs jobId (startJob job now) :=
                      storeWriteBack_of_some jobs jobId _ job hj
                    simp only [dequeueStartStep, hj]
                    rw [if_neg (not_not_intro hq)]
                    cases hfc : fileCheck (startJob job now) files with
                    | none =>
                        show SysInv ⟨⟨storeWriteBack jobs jobId
                          (startJob job now), rest, files⟩,
                          .busy jobId (startJob job now)⟩
                        constructor
                        · intro p hp
                          replace hp : p ∈ storeWriteBack jobs jobId
                              (startJob job now) := hp
                          rw [hwb] at hp
                          rcases mem_storePut _ _ _ _ hp with h1 | h1
                          · rw [h1]; exact hrec1
                          · exact hrec p h1
                        · refine (workerInv_busy_iff _ jobId _).mpr
                            ⟨startJob_status job now, hrec1, Or.inr ?_⟩
                          show storeGet (storeWriteBack jobs jobId
                            (startJob job now)) jobId = _
                          rw [hwb]
                          exact storeGet_put_same jobs jobId (startJob job now)
                    | some msg =>
                        have ht1 : (startJob job now).transcript = none :=
                          (hrecj.1 hq).1
                        have he1 : (startJob job now).error = none :=
                          (hrecj.1 hq).2
                        have hrec2 : recordInv (finishJob (startJob job now)
                            files (.failure msg) cf now2).1 :=
                          recordInv_finishJob _ files _ cf now2 ht1 he1
                        show SysInv ⟨⟨storeWriteBack (storeWriteBack jobs
                          jobId (startJob job now)) jobId
                          (finishJob (startJob job now) files (.failure msg)
                            cf now2).1, rest,
                          (finishJob (startJob job now) files (.failure msg)
                            cf now2).2⟩, .idle⟩
                        constructor
                        · intro p hp
                          replace hp : p ∈ storeWriteBack (storeWriteBack
                              jobs jobId (startJob job now)) jobId
                              (finishJob (startJob job now) files
                                (.failure msg) cf now2).1 := hp
                          rcases mem_storeWriteBack _ _ _ _ hp with h1 | h1
                          · rw [h1]; exact hrec2
                          · rw [hwb] at h1
                            rcases mem_storePut _ _ _ _ h1 with h2 | h2
                            · rw [h2]; exact hrec1
                            · exact hrec p h2
                        · exact workerInv_idle _
                  · simp only [dequeueStartStep, hj]
                    rw [if_pos hq]
                    exact ⟨hrec, workerInv_idle _⟩
  | finish outcome cf now =>
      obtain ⟨svc, w⟩ := s
      cases w with
      | idle => exact ⟨hrec, hwork⟩
      | busy wid held =>
          obtain ⟨hpr, hrh, _⟩ := (workerInv_busy_iff svc wid held).mp hwork
          obtain ⟨ht, he⟩ := hrh.2.1 hpr
          have hrec2 : recordInv (finishJob held svc.files outcome cf now).1 :=
            recordInv_finishJob held svc.files outcome cf now ht he
          constructor
          · intro p hp
            rcases mem_storeWriteBack _ _ _ _ hp with h1 | h1
            · rw [h1]; exact hrec2
            · exact hrec p h1
          · exact workerInv_idle _
  | del jobId u =>
      obtain ⟨svc, w⟩ := s
      show SysInv ⟨(delete_job svc jobId u).1, w⟩
      cases hd : storeGet svc.jobs jobId with
      | none =>
          have : (delete_job svc jobId u).1 = svc := by
            simp [delete_job, hd]
          rw [this]
          exact ⟨hrec, hwork⟩
      | some job =>
          have hjobs : (delete_job svc jobId u).1.jobs =
              storeErase svc.jobs jobId := by
            simp [delete_job, hd]
          constructor
          · intro p hp
            rw [show (⟨(delete_job svc jobId u).1, w⟩ :
                SysState).svc.jobs = _ from hjobs] at hp
            exact hrec p (mem_storeErase _ _ _ hp)
          · cases hw : w with
            | idle => exact workerInv_idle _
            | busy wid held =>
                subst hw
                obtain ⟨hpr, hrh, hcoh⟩ :=
                  (workerInv_busy_iff svc wid held).mp hwork
                refine (workerInv_busy_iff _ wid held).mpr ⟨hpr, hrh, ?_⟩
                rw [hjobs]
                by_cases hne : wid = jobId
                · subst hne
                  exact Or.inl (storeGet_erase_same svc.jobs wid)
                · rw [storeGet_erase_ne _ _ _ hne]
                  exact hcoh

/-- Witness for C4: the invariant holds after deleting "j1" from a state in
which the worker is busy on it. -/
theorem sysInv_preserved_witness :
    SysInv (deleteStep sysStarted "j1" false).1 :=
  sysInv_preserved cfgW sysStarted (deleteStep sysStarted "j1" false).1
    (by decide) (Step.del sysStarted "j1" false)

/-- C8: no step of the system moves a stored job's status backward: if a job
record is present before and after any step taken from an invariant-satisfying
state, the observed statuses are ordered forward along
QUEUED → PROCESSING → (COMPLETED or FAILED), so successive `get_status`
observations never regress. -/
theorem status_never_regresses (cfg : ServiceConfig) (s s' : SysState)
    (hinv : SysInv s) (hstep : Step cfg s s') (jobId : String)
    (j j' : TranscriptionJob)
    (hj : storeGet s.svc.jobs jobId = some j)
    (hj' : storeGet s'.svc.jobs jobId = some j') :
    statusLe j.status j'.status = true := by
  obtain ⟨hrec, hwork⟩ := hinv
  cases hstep with
  | submit audio userId filename jobId0 now fault hfresh =>
      obtain ⟨hfresh1, hfresh2⟩ := hfresh
      obtain ⟨svc, w⟩ := s
      replace hj : storeGet svc.jobs jobId = some j := hj
      replace hfresh1 : storeGet svc.jobs jobId0 = none := hfresh1
      have hne : jobId ≠ jobId0 := by
        intro h
        rw [h, hfresh1] at hj
        cases hj
      have hjobs :
          (create_job cfg svc audio userId filename jobId0 now fault).1.jobs =
            svc.jobs ∨
          (create_job cfg svc audio userId filename jobId0 now fault).1.jobs =
            storePut svc.jobs jobId0
              (newJobRecord cfg jobId0 userId filename now) := by
        by_cases hsz : audio.length > cfg.maxFileSizeMB * 1024 * 1024
        · left; simp [create_job, hsz]
        · cases fault <;> simp [create_job, hsz, createJobHandler]
      replace hj' : storeGet
          (create_job cfg svc audio userId filename jobId0 now fault).1.jobs
          jobId = some j' := hj'
      rcases hjobs with h | h
      · rw [h, hj] at hj'
        injection hj' with h2
        rw [h2]
        exact statusLe_refl _
      · rw [h, storeGet_put_ne _ _ _ _ hne, hj] at hj'
        injection hj' with h2
        rw [h2]
        exact statusLe_refl _
  | dequeueStart now now2 cf =>
      obtain ⟨svc, w⟩ := s
      cases w with
      | busy wid held =>
          replace hj : storeGet svc.jobs jobId = some j := hj
          replace hj' : storeGet svc.jobs jobId = some j' := hj'
          rw [hj] at hj'
          injection hj' with h2
          rw [h2]
          exact statusLe_refl _
      | idle =>
          obtain ⟨jobs, queue, files⟩ := svc
          replace hj : storeGet jobs jobId = some j := hj
          cases queue with
          | nil =>
              replace hj' : storeGet jobs jobId = some j' := hj'
              rw [hj] at hj'
              injection hj' with h2
              rw [h2]
              exact statusLe_refl _
          | cons jobId0 rest =>
              cases hj0 : storeGet jobs jobId0 with
              | none =>
                  simp only [dequeueStartStep, hj0] at hj'
                  replace hj' : storeGet jobs jobId = some j' := hj'
                  rw [hj] at hj'
                  injection hj' with h2
                  rw [h2]
                  exact statusLe_refl _
              | some job =>
                  by_cases hq : job.status = .queued
                  · have hwb : storeWriteBack jobs jobId0
                        (startJob job now) =
                        storePut jobs jobId0 (startJob job now) :=
                      storeWriteBack_of_some jobs jobId0 _ job hj0
                    simp only [dequeueStartStep, hj0] at hj'
                    rw [if_neg (not_not_intro hq)] at hj'
                    cases hfc : fileCheck (startJob job now) files with
                    | none =>
                        simp only [hfc] at hj'
                        replace hj' : storeGet (storeWriteBack jobs jobId0
                            (startJob job now)) jobId = some j' := hj'
                        rw [hwb] at hj'
                        by_cases hid : jobId = jobId0
                        · rw [hid] at hj hj'
                          rw [storeGet_put_same] at hj'
                          rw [hj0] at hj
                          injection hj with h2
                          injection hj' with h3
                          rw [← h2, ← h3, startJob_status, hq]
                          rfl
                        · rw [storeGet_put_ne _ _ _ _ hid, hj] at hj'
                          injection hj' with h2
                          rw [h2]
                          exact statusLe_refl _
                    | some msg =>
                        simp only [hfc] at hj'
                        replace hj' : storeGet (storeWriteBack
                            (storeWriteBack jobs jobId0 (startJob job now))
                            jobId0 (finishJob (startJob job now) files
                              (.failure msg) cf now2).1) jobId =
                            some j' := hj'
                        have hwb2 : storeWriteBack
                            (storeWriteBack jobs jobId0 (startJob job now))
                            jobId0 (finishJob (startJob job now) files
                              (.failure msg) cf now2).1 =
                            storePut (storeWriteBack jobs jobId0
                              (startJob job now)) jobId0
                              (finishJob (startJob job now) files
                                (.failure msg) cf now2).1 := by
                          apply storeWriteBack_of_some
                          rw [hwb]
                          exact storeGet_put_same _ _ _
                        rw [hwb2] at hj'
                        by_cases hid : jobId = jobId0
                        · rw [hid] at hj hj'
                          rw [storeGet_put_same] at hj'
                          rw [hj0] at hj
                          injection hj with h2
                          injection hj' with h3
                          rw [← h2, ← h3,
                            (finishJob_failure_fields _ _ _ _ _).1, hq]
                          rfl
                        · rw [storeGet_put_ne _ _ _ _ hid, hwb,
                            storeGet_put_ne _ _ _ _ hid, hj] at hj'
                          injection hj' with h2
                          rw [h2]
                          exact statusLe_refl _
                  · simp only [dequeueStartStep, hj0] at hj'
                    rw [if_pos hq] at hj'
                    replace hj' : storeGet jobs jobId = some j' := hj'
                    rw [hj] at hj'
                    injection hj' with h2
                    rw [h2]
                    exact statusLe_refl _
  | finish outcome cf now =>
      obtain ⟨svc, w⟩ := s
      cases w with
      | idle =>
          replace hj : storeGet svc.jobs jobId = some j := hj
          replace hj' : storeGet svc.jobs jobId = some j' := hj'
          rw [hj] at hj'
          injection hj' with h2
          rw [h2]
          exact statusLe_refl _
      | busy wid held =>
          replace hj : storeGet svc.jobs jobId = some j := hj
          obtain ⟨hpr, _, hcoh⟩ := (workerInv_busy_iff svc wid held).mp hwork
          replace hj' : storeGet (storeWriteBack svc.jobs wid
              (finishJob held svc.files outcome cf now).1) jobId =
              some j' := hj'
          by_cases hid : jobId = wid
          · rw [hid] at hj hj'
            rcases hcoh with hcoh | hcoh
            · rw [hcoh] at hj; cases hj
            · rw [hcoh] at hj
              injection hj with h2
              rw [storeWriteBack_of_some _ _ _ _ hcoh,
                storeGet_put_same] at hj'
              injection hj' with h3
              rw [← h2, ← h3, hpr]
              cases outcome with
              | success t =>
                  rw [(finishJob_success_fields _ _ _ _ _).1]
                  rfl
              | failure msg =>
                  rw [(finishJob_failure_fields _ _ _ _ _).1]
                  rfl
          · rw [storeGet_writeBack_ne _ _ _ _ hid, hj] at hj'
            injection hj' with h2
            rw [h2]
            exact statusLe_refl _
  | del jobId0 u =>
      obtain ⟨svc, w⟩ := s
      replace hj : storeGet svc.jobs jobId = some j := hj
      cases hd : storeGet svc.jobs jobId0 with
      | none =>
          have hsame : (delete_job svc jobId0 u).1 = svc := by
            simp [delete_job, hd]
          replace hj' : storeGet (delete_job svc jobId0 u).1.jobs jobId =
              some j' := hj'
          rw [hsame, hj] at hj'
          injection hj' with h2
          rw [h2]
          exact statusLe_refl _
      | some job =>
          have hjobs : (delete_job svc jobId0 u).1.jobs =
              storeErase svc.jobs jobId0 := by
            simp [delete_job, hd]
          replace hj' : storeGet (delete_job svc jobId0 u).1.jobs jobId =
              some j' := hj'
          rw [hjobs] at hj'
          by_cases hid : jobId = jobId0
          · rw [hid, storeGet_erase_same] at hj'
            cases hj'
          · rw [storeGet_erase_ne _ _ _ hid, hj] at hj'
            injection hj' with h2
            rw [h2]
            exact statusLe_refl _

/-- Witness for C8: "j1" goes QUEUED → PROCESSING across the worker's
dequeue-and-start step. -/
theorem status_never_regresses_witness :
    statusLe queuedJ1.status heldJ1.status = true :=
  status_never_regresses cfgW sysSubmitted sysStarted (by decide)
    (Step.dequeueStart sysSubmitted 1 1 false) "j1" queuedJ1 heldJ1
    (by decide) (by decide)
